import Mathlib

/-!
Verification of zhaozuodong/shortlink (main.go), a URL-shortening service.

The embedding translates main.go's data model, validators, code generator
and the four HTTP handlers into Lean. External collaborators are modelled
explicitly:
  * the GORM/SQLite store becomes a `List ShortLink` threaded through each
    handler (`db.Where("code = ?").First` is `List.find?` on the code
    column; sequentially, `db.Create` after a passed existence check cannot
    hit the unique index, so it is modelled as an append that succeeds);
  * instants (`time.Time`) become integers; `sql.NullTime` becomes the
    pair expiredAtValid/expiredAt;
  * `net/url.ParseRequestURI` is an abstract parameter
    `parse : String → Option GoURL` (the handlers consult only the parsed
    scheme, exactly as the Go code does);
  * `crypto/rand` is an abstract oracle: for `genRandomCode` a function
    `Nat → Except Unit (Fin 62)` giving each `rand.Int(rand.Reader, 62)`
    draw (in range by that library's contract) or its failure; at the
    `handleCreate` level, a function `Nat → Except Unit String` giving the
    result of each `genRandomCode(DefaultCodeLen)` call.
-/

/-! ## Configuration constants (main.go `const` block) -/

def DefaultCodeLen : Int := 6

def DefaultDomain : String := "http://localhost:8080"

def MaxCustomLength : Nat := 64

/-! ## Data model -/

/-- main.go `ShortLink` (the GORM row). -/
structure ShortLink where
  code : String
  targetURL : String
  clicks : Int
  createdAt : Int
  expiredAtValid : Bool
  expiredAt : Int
  deriving DecidableEq, Repr

/-- main.go `CreateReq` (request body of POST /api/shorten). -/
structure CreateReq where
  url : String
  custom : String
  ttl : Int
  deriving DecidableEq, Repr

/-- main.go `CreateResp` (success body of POST /api/shorten). -/
structure CreateResp where
  code : String
  shortURL : String
  url : String
  deriving DecidableEq, Repr

/-! ## Go string helpers used by main.go -/

/-- `beginsWith sub s`: sub is a leading segment of s (character lists). -/
def beginsWith : List Char → List Char → Bool
  | [], _ => true
  | _ :: _, [] => false
  | a :: as, b :: bs => a == b && beginsWith as bs

/-- Substring occurrence on character lists, for `strings.Contains`. -/
def hasSub (sub : List Char) : List Char → Bool
  | [] => beginsWith sub []
  | c :: rest => beginsWith sub (c :: rest) || hasSub sub rest

/-- Go `strings.Contains s sub`. -/
def goContains (s sub : String) : Bool :=
  hasSub sub.toList s.toList

/-- The whitespace class of Go `unicode.IsSpace` restricted to Latin-1
(space, tab, newline, vertical tab, form feed, carriage return, NEL,
no-break space) — the range main.go inputs can exercise. -/
def isGoSpace (c : Char) : Bool :=
  c == ' ' || c == '\t' || c == '\n' || c == '\x0B' || c == '\x0C' ||
  c == '\r' || c == '\u0085' || c == '\u00A0'

/-- Go `strings.TrimSpace`. -/
def goTrimSpace (s : String) : String :=
  String.mk (((s.toList.dropWhile isGoSpace).reverse.dropWhile isGoSpace).reverse)

/-- Go `strings.TrimRight s "/"`: remove every trailing '/'. -/
def goTrimRightSlash (s : String) : String :=
  String.mk ((s.toList.reverse.dropWhile (fun c => c == '/')).reverse)

/-! ## Validators (main.go isValidURL / isValidCode) -/

/-- The result of `net/url.ParseRequestURI`; main.go consults only the
scheme, but the other components parsed by that library are carried. -/
structure GoURL where
  scheme : String
  host : String
  path : String
  rawQuery : String
  deriving DecidableEq, Repr

/-- main.go `isValidURL`, parametric in the `net/url` parser: when the
input has no "://" the scheme "http://" is prepended, the result must
parse, and the parsed scheme must be http or https. -/
def isValidURL (parse : String → Option GoURL) (u : String) : Bool :=
  let u2 := if !goContains u "://" then "http://" ++ u else u
  match parse u2 with
  | none => false
  | some parsed =>
      if parsed.scheme ≠ "http" ∧ parsed.scheme ≠ "https" then false
      else true

/-- The character class of main.go's codeRegexp `^[A-Za-z0-9_-]+$`. -/
def isCodeChar (c : Char) : Bool :=
  ('A' ≤ c && c ≤ 'Z') || ('a' ≤ c && c ≤ 'z') || ('0' ≤ c && c ≤ '9') ||
  c == '_' || c == '-'

/-- main.go `isValidCode`: codeRegexp.MatchString, i.e. a non-empty string
every character of which is in `[A-Za-z0-9_-]`. -/
def isValidCode (s : String) : Bool :=
  !s.toList.isEmpty && s.toList.all isCodeChar

/-! ## Code generator (main.go genRandomCode) -/

/-- main.go's `alphabet` constant. -/
def alphabet : String := "0123456789abcdefghijklmnopqrstuvwxyzABCDEFGHIJKLMNOPQRSTUVWXYZ"

def alphabetList : List Char := alphabet.toList

/-- Indexing `alphabet[n.Int64()]` for the in-range draw of
`rand.Int(rand.Reader, big.NewInt(62))`. -/
def alphabetChar (v : Fin 62) : Char :=
  alphabetList.get ⟨v.val, Nat.lt_of_lt_of_le v.isLt (by decide)⟩

/-- The generation loop body of main.go `genRandomCode`: one character per
index, stopping at the first failure of the random source. -/
def genChars (rnd : Nat → Except Unit (Fin 62)) : List Nat → Except Unit (List Char)
  | [] => .ok []
  | i :: rest =>
      match rnd i with
      | .error e => .error e
      | .ok v =>
          match genChars rnd rest with
          | .error e => .error e
          | .ok cs => .ok (alphabetChar v :: cs)

/-- main.go `genRandomCode(length)`: a non-positive length falls back to
DefaultCodeLen; each character is drawn by `rand.Int(rand.Reader, 62)` and
a failure of the random source is propagated as the error return. -/
def genRandomCode (rnd : Nat → Except Unit (Fin 62)) (length : Int) : Except Unit String :=
  let n : Nat := if length ≤ 0 then 6 else length.toNat
  match genChars rnd (List.range n) with
  | .error e => .error e
  | .ok cs => .ok (String.mk cs)

/-! ## Store operations (the GORM calls of main.go) -/

/-- `db.Where("code = ?", code).First(&link)` on the modelled store. -/
def findByCode (store : List ShortLink) (code : String) : Option ShortLink :=
  store.find? (fun l => l.code == code)

/-- `db.Model(&link).UpdateColumn("clicks", gorm.Expr("clicks + ?", 1))`:
the row `First` selected (the first one with this code) gets clicks+1. -/
def bumpFirst (store : List ShortLink) (code : String) : List ShortLink :=
  match store with
  | [] => []
  | l :: rest =>
      if l.code = code then { l with clicks := l.clicks + 1 } :: rest
      else l :: bumpFirst rest code

/-- The expiry test of main.go handleRedirect:
`link.ExpiredAt.Valid && time.Now().After(link.ExpiredAt.Time)`
(`After` is strict). -/
def isExpired (now : Int) (l : ShortLink) : Bool :=
  l.expiredAtValid && decide (l.expiredAt < now)

/-! ## handleCreate -/

inductive CreateFailure where
  | customTooLong
  | customBadChars
  | customConflict
  | genFail
  | genConflict
  deriving DecidableEq, Repr

/-- HTTP outcome of POST /api/shorten, with main.go's message strings. -/
inductive CreateOutcome where
  | badRequest (msg : String)
  | conflict (msg : String)
  | internalError (msg : String)
  | ok (resp : CreateResp)
  deriving DecidableEq, Repr

def createFailureOutcome : CreateFailure → CreateOutcome
  | .customTooLong => .badRequest "自定义短码长度不能超过 64"
  | .customBadChars => .badRequest "自定义短码只允许字母数字和 - _"
  | .customConflict => .conflict "自定义短码已存在"
  | .genFail => .internalError "生成短码失败"
  | .genConflict => .internalError "生成短码冲突，稍后重试"

/-- The random-code loop of main.go handleCreate
(`for i := 0; i < 5; i++`), fuelled for structural recursion: the fuel is
always `5 - i`, so the fuel-0 default is never reached from the entry call
(the `i == 4` return fires first). `gen i` is the result of the i-th
`genRandomCode(DefaultCodeLen)` call. -/
def genLoopAux (gen : Nat → Except Unit String) (store : List ShortLink) :
    Nat → Nat → Except CreateFailure String
  | _, 0 => .error .genConflict
  | i, fuel + 1 =>
      match gen i with
      | .error _ => .error .genFail
      | .ok code =>
          if findByCode store code = none then .ok code
          else if i = 4 then .error .genConflict
          else genLoopAux gen store (i + 1) fuel

def genLoop (gen : Nat → Except Unit String) (store : List ShortLink) :
    Except CreateFailure String :=
  genLoopAux gen store 0 5

/-- The code-selection part of main.go handleCreate: the custom-code
branch (length bound in bytes, charset, existence check — `res.Error == nil`,
i.e. any stored row with that code, conflicts) or the generation loop. -/
def chooseCode (gen : Nat → Except Unit String) (store : List ShortLink)
    (custom : String) : Except CreateFailure String :=
  if custom ≠ "" then
    if custom.utf8ByteSize > MaxCustomLength then .error .customTooLong
    else if !isValidCode custom then .error .customBadChars
    else if (findByCode store custom).isSome then .error .customConflict
    else .ok custom
  else genLoop gen store

/-- main.go handleCreate. `domEnv` is the value of `os.Getenv("SHORT_DOMAIN")`
("" when unset), `now` the instant `time.Now()` returns, `gen` the random
generator oracle (see genLoopAux). Returns the HTTP outcome and the store
after the request. -/
def handleCreate (parse : String → Option GoURL) (gen : Nat → Except Unit String)
    (domEnv : String) (now : Int) (store : List ShortLink) (req : CreateReq) :
    CreateOutcome × List ShortLink :=
  let u := goTrimSpace req.url
  if u = "" then (.badRequest "url 不能为空", store)
  else if isValidURL parse u = false then (.badRequest "url 格式不正确", store)
  else
    match chooseCode gen store req.custom with
    | .error e => (createFailureOutcome e, store)
    | .ok code =>
        let link : ShortLink :=
          { code := code, targetURL := u, clicks := 0, createdAt := now,
            expiredAtValid := decide (0 < req.ttl),
            expiredAt := if 0 < req.ttl then now + req.ttl else 0 }
        let shortDomain := if domEnv = "" then DefaultDomain else domEnv
        (.ok { code := code,
               shortURL := goTrimRightSlash shortDomain ++ "/" ++ code,
               url := u },
         store ++ [link])

/-! ## handleRedirect / handleInfo / handleDelete -/

/-- HTTP outcome of GET /:code; `found` is `c.Redirect(http.StatusFound, …)`,
a 302 temporary redirect carrying the Location. -/
inductive RedirectOutcome where
  | badRequest
  | notFound
  | gone
  | found (location : String)
  deriving DecidableEq, Repr

/-- main.go handleRedirect: lookup, expiry check, atomic click increment,
302 to the target. -/
def handleRedirect (now : Int) (store : List ShortLink) (code : String) :
    RedirectOutcome × List ShortLink :=
  if code = "" then (.badRequest, store)
  else
    match findByCode store code with
    | none => (.notFound, store)
    | some link =>
        if isExpired now link then (.gone, store)
        else (.found link.targetURL, bumpFirst store code)

inductive InfoOutcome where
  | notFound
  | ok (code url : String) (clicks : Int) (createdAt : Int)
      (expiredAtValid : Bool) (expiredAt : Int)
  deriving DecidableEq, Repr

/-- main.go handleInfo: a pure lookup, the store is not written. -/
def handleInfo (store : List ShortLink) (code : String) :
    InfoOutcome × List ShortLink :=
  match findByCode store code with
  | none => (.notFound, store)
  | some l => (.ok l.code l.targetURL l.clicks l.createdAt l.expiredAtValid l.expiredAt, store)

inductive DeleteOutcome where
  | notFound
  | ok
  deriving DecidableEq, Repr

/-- main.go handleDelete: `db.Where("code = ?", code).Delete`; not-found
when RowsAffected is 0. -/
def handleDelete (store : List ShortLink) (code : String) :
    DeleteOutcome × List ShortLink :=
  let remaining := store.filter (fun l => !(l.code == code))
  if remaining.length = store.length then (.notFound, remaining)
  else (.ok, remaining)

/-! ## Concrete environments for witnesses and counterexamples -/

/-- Test oracle for the external `net/url` parser: accepts every string as
scheme-http (the handlers are parametric in the parser). -/
def parseAlwaysHttp : String → Option GoURL :=
  fun s => some { scheme := "http", host := "", path := s, rawQuery := "" }

/-- Test oracle for the generator: the random source always fails. -/
def genNone : Nat → Except Unit String := fun _ => .error ()

/-- A stored link whose code is "abc" and whose expiry is set and past at
instant 0: an expired, retained row. -/
def expiredAbc : ShortLink :=
  { code := "abc", targetURL := "http://t.example", clicks := 0,
    createdAt := -10, expiredAtValid := true, expiredAt := -5 }

/-- A stored, expired link whose code is the 6-character "cccccc". -/
def expiredCCC : ShortLink :=
  { code := "cccccc", targetURL := "http://t.example", clicks := 0,
    createdAt := -10, expiredAtValid := true, expiredAt := -5 }

/-- A link at the expiry boundary: expiry set and equal to instant 0. -/
def boundaryAbc : ShortLink :=
  { code := "abc", targetURL := "http://t.example", clicks := 3,
    createdAt := -10, expiredAtValid := true, expiredAt := 0 }

/-- A create request with custom code "abc". -/
def reqCustomAbc : CreateReq :=
  { url := "http://x.example", custom := "abc", ttl := 0 }

/-- A create request with no custom code (auto generation). -/
def reqAuto : CreateReq :=
  { url := "http://x.example", custom := "", ttl := 0 }

/-- A create request with a negative ttl_seconds. -/
def reqNegTTL : CreateReq :=
  { url := "http://x.example", custom := "abc", ttl := -7 }

/-- Test oracle for the generator: every call yields "zzzzzz". -/
def genZ : Nat → Except Unit String := fun _ => .ok "zzzzzz"

/-- Test oracle for the generator: every call yields "cccccc". -/
def genC : Nat → Except Unit String := fun _ => .ok "cccccc"

/-- The response of a successful create of "abc" under domain
"http://s.example" at instant 0. -/
def respAbc : CreateResp :=
  { code := "abc", shortURL := "http://s.example/abc", url := "http://x.example" }

/-- The store after that create, from an empty store. -/
def storeAbc : List ShortLink :=
  [{ code := "abc", targetURL := "http://x.example", clicks := 0, createdAt := 0,
     expiredAtValid := false, expiredAt := 0 }]

/-! ## Helper lemmas -/

theorem toList_eq_nil_iff (s : String) : s.toList = [] ↔ s = "" := by
  constructor
  · intro h
    apply String.ext
    simpa [String.toList] using h
  · intro h
    subst h
    rfl

theorem mk_toList (s : String) : String.mk s.toList = s := rfl

theorem findByCode_bumpFirst_self (store : List ShortLink) (code : String) (link : ShortLink)
    (h : findByCode store code = some link) :
    findByCode (bumpFirst store code) code = some { link with clicks := link.clicks + 1 } := by
  induction store with
  | nil => simp [findByCode] at h
  | cons l rest ih =>
      by_cases hc : l.code = code
      · rw [findByCode, List.find?_cons_of_pos _ (by simpa using hc)] at h
        cases h
        simp [bumpFirst, hc, findByCode, List.find?_cons_of_pos]
      · rw [findByCode, List.find?_cons_of_neg _ (by simpa using hc)] at h
        rw [bumpFirst, if_neg hc, findByCode, List.find?_cons_of_neg _ (by simpa using hc)]
        exact ih h

theorem findByCode_bumpFirst_ne (store : List ShortLink) (code other : String)
    (h : other ≠ code) :
    findByCode (bumpFirst store code) other = findByCode store other := by
  induction store with
  | nil => simp [bumpFirst]
  | cons l rest ih =>
      by_cases hc : l.code = code
      · have hlo : ¬ (l.code = other) := fun he => h (he.symm.trans hc)
        rw [bumpFirst, if_pos hc, findByCode, List.find?_cons_of_neg _ (by simpa using hlo),
          findByCode, List.find?_cons_of_neg _ (by simpa using hlo)]
      · rw [bumpFirst, if_neg hc]
        by_cases hlo : l.code = other
        · rw [findByCode, List.find?_cons_of_pos _ (by simpa using hlo),
            findByCode, List.find?_cons_of_pos _ (by simpa using hlo)]
        · rw [findByCode, List.find?_cons_of_neg _ (by simpa using hlo),
            findByCode, List.find?_cons_of_neg _ (by simpa using hlo)]
          exact ih

theorem genChars_ok (rnd : Nat → Except Unit (Fin 62)) :
    ∀ (idxs : List Nat) (cs : List Char), genChars rnd idxs = .ok cs →
      cs.length = idxs.length ∧ ∀ c ∈ cs, c ∈ alphabetList := by
  intro idxs
  induction idxs with
  | nil =>
      intro cs h
      cases h
      simp
  | cons i rest ih =>
      intro cs h
      rw [genChars] at h
      cases hg : rnd i with
      | error e => rw [hg] at h; cases h
      | ok v =>
          rw [hg] at h
          cases hr : genChars rnd rest with
          | error e => rw [hr] at h; cases h
          | ok cs2 =>
              rw [hr] at h
              cases h
              obtain ⟨hlen, hmem⟩ := ih cs2 hr
              refine ⟨by simp [hlen], ?_⟩
              intro c hd
              rcases List.mem_cons.mp hd with hd | hd
              · subst hd
                exact List.get_mem _ _ _
              · exact hmem c hd

theorem genChars_error (rnd : Nat → Except Unit (Fin 62)) :
    ∀ (idxs : List Nat), genChars rnd idxs = .error () ↔ ∃ i ∈ idxs, rnd i = .error () := by
  intro idxs
  induction idxs with
  | nil => simp [genChars]
  | cons i rest ih =>
      rw [genChars]
      cases hg : rnd i with
      | error e =>
          cases e
          simp [hg]
      | ok v =>
          cases hr : genChars rnd rest with
          | error e =>
              cases e
              refine ⟨fun _ => ?_, fun _ => rfl⟩
              obtain ⟨j, hj, hje⟩ := ih.mp hr
              exact ⟨j, List.mem_cons_of_mem _ hj, hje⟩
          | ok cs =>
              simp only []
              constructor
              · intro h
                cases h
              · rintro ⟨j, hj, hje⟩
                rcases List.mem_cons.mp hj with rfl | hj
                · rw [hje] at hg
                  cases hg
                · have : genChars rnd rest = .error () := (ih).mpr ⟨j, hj, hje⟩
                  rw [this] at hr
                  cases hr

theorem genLoopAux_err (gen : Nat → Except Unit String) (store : List ShortLink)
    (i fuel : Nat) (h : gen i = .error ()) :
    genLoopAux gen store i (fuel + 1) = .error .genFail := by
  rw [genLoopAux, h]

theorem genLoopAux_accept (gen : Nat → Except Unit String) (store : List ShortLink)
    (i fuel : Nat) (c : String) (h : gen i = .ok c) (hf : findByCode store c = none) :
    genLoopAux gen store i (fuel + 1) = .ok c := by
  rw [genLoopAux, h]
  simp [hf]

theorem genLoopAux_collide (gen : Nat → Except Unit String) (store : List ShortLink)
    (i fuel : Nat) (c : String) (h : gen i = .ok c) (hf : findByCode store c ≠ none)
    (hi : i ≠ 4) :
    genLoopAux gen store i (fuel + 1) = genLoopAux gen store (i + 1) fuel := by
  rw [genLoopAux, h]
  simp [hf, hi]

theorem genLoopAux_last (gen : Nat → Except Unit String) (store : List ShortLink)
    (fuel : Nat) (c : String) (h : gen 4 = .ok c) (hf : findByCode store c ≠ none) :
    genLoopAux gen store 4 (fuel + 1) = .error .genConflict := by
  rw [genLoopAux, h]
  simp [hf]

theorem genLoopAux_congr (gen gen2 : Nat → Except Unit String) (store : List ShortLink) :
    ∀ (fuel i : Nat), (∀ k, i ≤ k → k < i + fuel → gen k = gen2 k) →
      genLoopAux gen store i fuel = genLoopAux gen2 store i fuel := by
  intro fuel
  induction fuel with
  | zero => intro i _; rfl
  | succ n ih =>
      intro i h
      have hi : gen2 i = gen i := (h i le_rfl (by omega)).symm
      rw [genLoopAux, genLoopAux, hi]
      cases gen i with
      | error e => rfl
      | ok c =>
          by_cases hf : findByCode store c = none
      
          · simp [hf]
          · by_cases h4 : i = 4
            · simp [hf, h4]
            · simp only [if_neg hf, if_neg h4]
              exact ih (i + 1) (fun k hk1 hk2 => h k (by omega) (by omega))

theorem genLoop_all_collide (gen : Nat → Except Unit String) (store : List ShortLink)
    (h : ∀ i, i < 5 → ∃ c, gen i = .ok c ∧ findByCode store c ≠ none) :
    genLoop gen store = .error .genConflict := by
  obtain ⟨c0, h0, f0⟩ := h 0 (by omega)
  obtain ⟨c1, h1, f1⟩ := h 1 (by omega)
  obtain ⟨c2, h2, f2⟩ := h 2 (by omega)
  obtain ⟨c3, h3, f3⟩ := h 3 (by omega)
  obtain ⟨c4, h4, f4⟩ := h 4 (by omega)
  rw [genLoop,
    genLoopAux_collide gen store 0 4 c0 h0 f0 (by omega),
    genLoopAux_collide gen store 1 3 c1 h1 f1 (by omega),
    genLoopAux_collide gen store 2 2 c2 h2 f2 (by omega),
    genLoopAux_collide gen store 3 1 c3 h3 f3 (by omega),
    genLoopAux_last gen store 0 c4 h4 f4]

theorem genLoop_first_accept (gen : Nat → Except Unit String) (store : List ShortLink)
    (j : Nat) (c : String) (hj : j < 5) (hg : gen j = .ok c)
    (hf : findByCode store c = none)
    (hb : ∀ i, i < j → ∃ ci, gen i = .ok ci ∧ findByCode store ci ≠ none) :
    genLoop gen store = .ok c := by
  rw [genLoop]
  interval_cases j
  · exact genLoopAux_accept gen store 0 4 c hg hf
  · obtain ⟨c0, h0, f0⟩ := hb 0 (by omega)
    rw [genLoopAux_collide gen store 0 4 c0 h0 f0 (by omega)]
    exact genLoopAux_accept gen store 1 3 c hg hf
  · obtain ⟨c0, h0, f0⟩ := hb 0 (by omega)
    obtain ⟨c1, h1, f1⟩ := hb 1 (by omega)
    rw [genLoopAux_collide gen store 0 4 c0 h0 f0 (by omega),
      genLoopAux_collide gen store 1 3 c1 h1 f1 (by omega)]
    exact genLoopAux_accept gen store 2 2 c hg hf
  · obtain ⟨c0, h0, f0⟩ := hb 0 (by omega)
    obtain ⟨c1, h1, f1⟩ := hb 1 (by omega)
    obtain ⟨c2, h2, f2⟩ := hb 2 (by omega)
    rw [genLoopAux_collide gen store 0 4 c0 h0 f0 (by omega),
      genLoopAux_collide gen store 1 3 c1 h1 f1 (by omega),
      genLoopAux_collide gen store 2 2 c2 h2 f2 (by omega)]
    exact genLoopAux_accept gen store 3 1 c hg hf
  · obtain ⟨c0, h0, f0⟩ := hb 0 (by omega)
    obtain ⟨c1, h1, f1⟩ := hb 1 (by omega)
    obtain ⟨c2, h2, f2⟩ := hb 2 (by omega)
    obtain ⟨c3, h3, f3⟩ := hb 3 (by omega)
    rw [genLoopAux_collide gen store 0 4 c0 h0 f0 (by omega),
      genLoopAux_collide gen store 1 3 c1 h1 f1 (by omega),
      genLoopAux_collide gen store 2 2 c2 h2 f2 (by omega),
      genLoopAux_collide gen store 3 1 c3 h3 f3 (by omega)]
    exact genLoopAux_accept gen store 4 0 c hg hf

theorem goTrimRightSlash_eq_self (s : String) (h : s.toList.getLast? ≠ some '/') :
    goTrimRightSlash s = s := by
  rw [goTrimRightSlash]
  cases hrev : s.toList.reverse with
  | nil =>
      have hnil : s.toList = [] := by
        have h2 := congrArg List.reverse hrev
        simpa using h2
      rw [(toList_eq_nil_iff s).mp hnil]
      rfl
  | cons c rest =>
      have hlast : s.toList.getLast? = some c := by
        rw [← List.head?_reverse, hrev]
        rfl
      have hc : (c == '/') = false := by
        cases hcc : (c == '/') with
        | false => rfl
        | true =>
            exact absurd (hlast.trans (by rw [show c = '/' from by simpa using hcc]))
              h
      rw [List.dropWhile_cons]
      have h3 : (c :: rest).reverse = s.toList := by
        rw [← hrev]
        simp
      simp only [if_neg (by simp [hc] : ¬ (c == '/') = true)]
      rw [h3]
      exact mk_toList s

/-- Case shape of main.go handleCreate: every failure leaves the store
unchanged; success appends exactly one fresh row (clicks 0, created now,
expiry set iff ttl positive) and reports the chosen code, the constructed
short URL, and the trimmed original URL. -/
theorem handleCreate_shape (parse : String → Option GoURL) (gen : Nat → Except Unit String)
    (domEnv : String) (now : Int) (store : List ShortLink) (req : CreateReq) :
    (∃ msg, handleCreate parse gen domEnv now store req = (.badRequest msg, store)) ∨
    (∃ msg, handleCreate parse gen domEnv now store req = (.conflict msg, store)) ∨
    (∃ msg, handleCreate parse gen domEnv now store req = (.internalError msg, store)) ∨
    (∃ code, chooseCode gen store req.custom = .ok code ∧
      handleCreate parse gen domEnv now store req =
        (.ok { code := code,
               shortURL := goTrimRightSlash (if domEnv = "" then DefaultDomain else domEnv)
                 ++ "/" ++ code,
               url := goTrimSpace req.url },
         store ++ [{ code := code, targetURL := goTrimSpace req.url, clicks := 0,
                     createdAt := now, expiredAtValid := decide (0 < req.ttl),
                     expiredAt := if 0 < req.ttl then now + req.ttl else 0 }])) := by
  simp only [handleCreate]
  split
  · exact Or.inl ⟨_, rfl⟩
  · split
    · exact Or.inl ⟨_, rfl⟩
    · cases hcc : chooseCode gen store req.custom with
      | error e =>
          cases e
          · exact Or.inl ⟨_, rfl⟩
          · exact Or.inl ⟨_, rfl⟩
          · exact Or.inr (Or.inl ⟨_, rfl⟩)
          · exact Or.inr (Or.inr (Or.inl ⟨_, rfl⟩))
          · exact Or.inr (Or.inr (Or.inl ⟨_, rfl⟩))
      | ok code =>
          exact Or.inr (Or.inr (Or.inr ⟨code, rfl, rfl⟩))

/-! ## Claim theorems -/

/-- C6: for every parser behaviour and every string s, isValidURL returns
true iff, after prepending "http://" when s contains no "://", the string
parses as a URI whose scheme is exactly "http" or "https"; it returns
false on parse failure. (It is a pure Lean function, so it has no side
effects by construction.) -/
theorem c6_isValidURL_characterization :
    ∀ (parse : String → Option GoURL) (s : String),
      (isValidURL parse s = true ↔
        ∃ u, parse (if goContains s "://" then s else "http://" ++ s) = some u ∧
          (u.scheme = "http" ∨ u.scheme = "https")) ∧
      (parse (if goContains s "://" then s else "http://" ++ s) = none →
        isValidURL parse s = false) := by
  intro parse s
  set t := if goContains s "://" then s else "http://" ++ s with ht
  have hdef : isValidURL parse s =
      (match parse t with
       | none => false
       | some parsed =>
           if parsed.scheme ≠ "http" ∧ parsed.scheme ≠ "https" then false else true) := by
    rw [isValidURL, ht]
    cases hg : goContains s "://" <;> simp [hg]
  rw [hdef]
  cases hp : parse t with
  | none => simp
  | some p =>
      have hred : (match some p with
          | none => false
          | some parsed =>
              if parsed.scheme ≠ "http" ∧ parsed.scheme ≠ "https" then false else true) =
          (if p.scheme ≠ "http" ∧ p.scheme ≠ "https" then false else true) := rfl
      rw [hred]
      refine ⟨⟨fun hv => ⟨p, rfl, ?_⟩, fun hex => ?_⟩, fun hx => by cases hx⟩
      · by_cases h1 : p.scheme = "http"
        · exact Or.inl h1
        · by_cases h2 : p.scheme = "https"
          · exact Or.inr h2
          · rw [if_pos ⟨h1, h2⟩] at hv
            cases hv
      · obtain ⟨u, hu, hsch⟩ := hex
        injection hu with hu2
        subst hu2
        rw [if_neg (fun hcon => hsch.elim hcon.1 hcon.2)]

/-- C7: isValidCode accepts exactly the non-empty strings over
[A-Za-z0-9_-] (the regexp ^[A-Za-z0-9_-]+$); "go_123-A" is accepted,
while a space, "/" or "@" is rejected. -/
theorem c7_isValidCode_characterization :
    (∀ s : String, isValidCode s = true ↔
        (s ≠ "" ∧ ∀ c ∈ s.toList,
          ('A' ≤ c ∧ c ≤ 'Z') ∨ ('a' ≤ c ∧ c ≤ 'z') ∨ ('0' ≤ c ∧ c ≤ '9') ∨
            c = '_' ∨ c = '-')) ∧
    isValidCode "go_123-A" = true ∧ isValidCode "go 123" = false ∧
    isValidCode "a/b" = false ∧ isValidCode "a@b" = false ∧ isValidCode "" = false := by
  refine ⟨?_, by decide, by decide, by decide, by decide, by decide⟩
  intro s
  constructor
  · intro h
    rw [isValidCode, Bool.and_eq_true] at h
    obtain ⟨h1, h2⟩ := h
    constructor
    · intro hs
      subst hs
      cases h1
    · intro c hc
      have h3 := List.all_eq_true.mp h2 c hc
      rw [isCodeChar] at h3
      simp only [Bool.or_eq_true, Bool.and_eq_true, decide_eq_true_eq, beq_iff_eq] at h3
      tauto
  · rintro ⟨h1, h2⟩
    rw [isValidCode, Bool.and_eq_true]
    refine ⟨?_, ?_⟩
    · have hne : s.toList ≠ [] := fun hnil => h1 ((toList_eq_nil_iff s).mp hnil)
      cases hl : s.toList with
      | nil => exact absurd hl hne
      | cons a l => rfl
    · refine List.all_eq_true.mpr (fun c hc => ?_)
      have h3 := h2 c hc
      rw [isCodeChar]
      simp only [Bool.or_eq_true, Bool.and_eq_true, decide_eq_true_eq, beq_iff_eq]
      tauto

/-- C8: genRandomCode returns a string of exactly the requested length
(6 when the request is non-positive), every character taken from the
62-character alphabet 0-9a-zA-Z, and it returns the error of the random
source exactly when some consulted draw fails (no fallback). -/
theorem c8_genRandomCode_contract (rnd : Nat → Except Unit (Fin 62)) (len : Int) :
    alphabetList.length = 62 ∧
    (∀ s, genRandomCode rnd len = .ok s →
        (s.length = if len ≤ 0 then 6 else len.toNat) ∧
        (0 < len → (s.length : Int) = len) ∧
        ∀ c ∈ s.toList, c ∈ alphabetList) ∧
    (genRandomCode rnd len = .error () ↔
        ∃ i, i < (if len ≤ 0 then 6 else len.toNat) ∧ rnd i = .error ()) := by
  refine ⟨by decide, ?_, ?_⟩
  · intro s h
    simp only [genRandomCode] at h
    cases hg : genChars rnd (List.range (if len ≤ 0 then 6 else len.toNat)) with
    | error e => rw [hg] at h; cases h
    | ok cs =>
        rw [hg] at h
        injection h with h2
        subst h2
        obtain ⟨hlen, hmem⟩ := genChars_ok rnd _ cs hg
        have hslen : (String.mk cs).length = cs.length := rfl
        refine ⟨?_, ?_, ?_⟩
        · rw [hslen, hlen, List.length_range]
        · intro hpos
          rw [hslen, hlen, List.length_range, if_neg (by omega)]
          exact Int.toNat_of_nonneg (le_of_lt hpos)
        · intro c hc
          exact hmem c hc
  · have herr := genChars_error rnd (List.range (if len ≤ 0 then 6 else len.toNat))
    simp only [genRandomCode]
    cases hg : genChars rnd (List.range (if len ≤ 0 then 6 else len.toNat)) with
    | error e =>
        cases e
        constructor
        · intro _
          obtain ⟨i, hmem, hie⟩ := herr.mp hg
          exact ⟨i, List.mem_range.mp hmem, hie⟩
        · intro _
          rfl
    | ok cs =>
        constructor
        · intro hx
          cases hx
        · intro hex
          obtain ⟨i, hi, hie⟩ := hex
          have hcontra : genChars rnd (List.range (if len ≤ 0 then 6 else len.toNat)) = .error () :=
            herr.mpr ⟨i, List.mem_range.mpr hi, hie⟩
          rw [hcontra] at hg
          cases hg

/-- C3: a redirect for an unknown code fails not-found, and a redirect for
a stored but expired link (expiry set and strictly past) fails gone; in
both cases the store — in particular every clicks counter — is unchanged. -/
theorem c3_redirect_absent_or_expired (now : Int) (store : List ShortLink) (code : String)
    (hne : code ≠ "") :
    (findByCode store code = none →
      handleRedirect now store code = (.notFound, store)) ∧
    (∀ link, findByCode store code = some link → link.expiredAtValid = true →
      link.expiredAt < now →
      handleRedirect now store code = (.gone, store)) := by
  constructor
  · intro hf
    rw [handleRedirect, if_neg hne, hf]
  · intro link hf hv hlt
    rw [handleRedirect, if_neg hne, hf]
    have hexp : isExpired now link = true := by
      rw [isExpired, hv]
      simpa using hlt
    simp [hexp]

/-- C3 witness: at instant 1 the store holding only the expired "abc" link
(expiry -5) answers gone for "abc" and leaves the store unchanged. -/
theorem c3_redirect_witness :
    (findByCode [expiredAbc] "abc" = none →
      handleRedirect 1 [expiredAbc] "abc" = (.notFound, [expiredAbc])) ∧
    (∀ link, findByCode [expiredAbc] "abc" = some link → link.expiredAtValid = true →
      link.expiredAt < 1 →
      handleRedirect 1 [expiredAbc] "abc" = (.gone, [expiredAbc])) :=
  c3_redirect_absent_or_expired 1 [expiredAbc] "abc" (by decide)

/-- C9 (implicit): the expiry comparison is strict — a link whose expiry
equals the current instant is served: the redirect answers 302 with the
target URL and that link's clicks counter is incremented by one. -/
theorem c9_expiry_boundary_not_expired (now : Int) (store : List ShortLink) (code : String)
    (link : ShortLink) (hne : code ≠ "") (hf : findByCode store code = some link)
    (hv : link.expiredAtValid = true) (heq : link.expiredAt = now) :
    handleRedirect now store code = (.found link.targetURL, bumpFirst store code) ∧
    findByCode (bumpFirst store code) code = some { link with clicks := link.clicks + 1 } := by
  have hexp : isExpired now link = false := by
    rw [isExpired, hv, heq]
    simp
  constructor
  · rw [handleRedirect, if_neg hne, hf]
    simp [hexp]
  · exact findByCode_bumpFirst_self store code link hf


/-- C9 witness: at the very instant its expiry timestamp is reached, the
"abc" link is still served (302 to its target) and its clicks go 3 → 4. -/
theorem c9_expiry_boundary_witness :
    handleRedirect 0 [boundaryAbc] "abc"
        = (.found boundaryAbc.targetURL, bumpFirst [boundaryAbc] "abc") ∧
    findByCode (bumpFirst [boundaryAbc] "abc") "abc"
        = some { boundaryAbc with clicks := boundaryAbc.clicks + 1 } :=
  c9_expiry_boundary_not_expired 0 [boundaryAbc] "abc" boundaryAbc
    (by decide) (by decide) rfl rfl

/-- Reduction of chooseCode for an accepted custom code: the only
remaining test is existence of ANY stored row with that code. -/
theorem chooseCode_custom (gen : Nat → Except Unit String) (store : List ShortLink)
    (custom : String) (hc : custom ≠ "") (hlen : custom.utf8ByteSize ≤ MaxCustomLength)
    (hcs : isValidCode custom = true) :
    chooseCode gen store custom =
      (match findByCode store custom with
       | some _ => .error .customConflict
       | none => .ok custom) := by
  rw [chooseCode, if_pos hc, if_neg (by omega), if_neg (by simp [hcs])]
  cases hf : findByCode store custom with
  | none => rw [if_neg (by simp [hf])]
  | some l => rw [if_pos (by simp [hf])]

/-- Reduction of handleCreate once the URL checks pass. -/
theorem handleCreate_valid (parse : String → Option GoURL) (gen : Nat → Except Unit String)
    (domEnv : String) (now : Int) (store : List ShortLink) (req : CreateReq)
    (hu : goTrimSpace req.url ≠ "") (hv : isValidURL parse (goTrimSpace req.url) = true) :
    handleCreate parse gen domEnv now store req =
      (match chooseCode gen store req.custom with
       | .error e => (createFailureOutcome e, store)
       | .ok code =>
           (.ok { code := code,
                  shortURL := goTrimRightSlash (if domEnv = "" then DefaultDomain else domEnv)
                    ++ "/" ++ code,
                  url := goTrimSpace req.url },
            store ++ [{ code := code, targetURL := goTrimSpace req.url, clicks := 0,
                        createdAt := now, expiredAtValid := decide (0 < req.ttl),
                        expiredAt := if 0 < req.ttl then now + req.ttl else 0 }])) := by
  simp only [handleCreate]
  rw [if_neg hu, if_neg (by simp [hv])]

/-- C1 counterexample: at instant 0 the only stored link with code "abc"
is expired (expiry -5, set and past), yet the create request with custom
code "abc" is answered with the 409 conflict instead of succeeding — the
existence check of handleCreate does not exclude expired links. -/
theorem c1_counterexample_expired_row_conflicts :
    isExpired 0 expiredAbc = true ∧
    handleCreate parseAlwaysHttp genNone "" 0 [expiredAbc] reqCustomAbc
      = (.conflict "自定义短码已存在", [expiredAbc]) := by
  constructor
  · rfl
  · rfl

/-- C1 (amended): for a create request carrying a custom code of valid
charset and byte length at most 64, over an accepted URL, the outcome is
the 409 conflict iff ANY stored link with that code exists — active or
expired alike — and when no stored link has the code, the create succeeds
using the custom code verbatim. -/
theorem c1_custom_code_conflict (parse : String → Option GoURL)
    (gen : Nat → Except Unit String) (domEnv : String) (now : Int)
    (store : List ShortLink) (req : CreateReq)
    (hc : req.custom ≠ "") (hlen : req.custom.utf8ByteSize ≤ MaxCustomLength)
    (hcs : isValidCode req.custom = true) (hu : goTrimSpace req.url ≠ "")
    (hv : isValidURL parse (goTrimSpace req.url) = true) :
    ((∃ msg, (handleCreate parse gen domEnv now store req).1 = .conflict msg) ↔
      (findByCode store req.custom).isSome = true) ∧
    (findByCode store req.custom = none →
      ∃ resp store2, handleCreate parse gen domEnv now store req = (.ok resp, store2) ∧
        resp.code = req.custom) := by
  have hstep := handleCreate_valid parse gen domEnv now store req hu hv
  rw [chooseCode_custom gen store req.custom hc hlen hcs] at hstep
  cases hf : findByCode store req.custom with
  | some l =>
      simp only [hf] at hstep
      constructor
      · constructor
        · intro _
          rfl
        · intro _
          exact ⟨"自定义短码已存在", by rw [hstep]; rfl⟩
      · intro hfn
        simp at hfn
  | none =>
      simp only [hf] at hstep
      constructor
      · constructor
        · rintro ⟨msg, hmsg⟩
          rw [hstep] at hmsg
          simp at hmsg
        · intro hsome
          simp at hsome
      · intro _
        exact ⟨_, _, hstep, rfl⟩

/-- C1 witness: with an empty store, the custom-code create with "abc"
does not conflict and succeeds with code "abc" verbatim. -/
theorem c1_custom_code_witness :
    ((∃ msg, (handleCreate parseAlwaysHttp genNone "" 0 [] reqCustomAbc).1 = .conflict msg) ↔
      (findByCode [] reqCustomAbc.custom).isSome = true) ∧
    (findByCode [] reqCustomAbc.custom = none →
      ∃ resp store2,
        handleCreate parseAlwaysHttp genNone "" 0 [] reqCustomAbc = (.ok resp, store2) ∧
          resp.code = reqCustomAbc.custom) :=
  c1_custom_code_conflict parseAlwaysHttp genNone "" 0 [] reqCustomAbc
    (by decide) (by decide) (by decide) (by decide) (by decide)

/-- C2 counterexample: with a generator drawing "cccccc" on every attempt
and a store holding ONLY an expired link with code "cccccc" — so no
attempted code matches any active link — auto-generation create fails
with the 500 generation conflict, whereas the claim (collision = match
with an active link) predicts the first attempt to be accepted. -/
theorem c2_counterexample_expired_row_collides :
    isExpired 0 expiredCCC = true ∧
    handleCreate parseAlwaysHttp genC "" 0 [expiredCCC] reqAuto
      = (.internalError "生成短码冲突，稍后重试", [expiredCCC]) := by
  constructor
  · rfl
  · rfl

/-- C2 (amended): for a create request without a custom code over an
accepted URL: the result depends only on the first five generator draws
(at most 5 attempts); if every one of the five drawn codes matches SOME
stored row — active or expired alike — the create fails with the 500
generation conflict leaving the store unchanged; and the first drawn code
matching no stored row is accepted verbatim and persisted (no longer code
or different alphabet). -/
theorem c2_generation_policy (parse : String → Option GoURL)
    (gen gen2 : Nat → Except Unit String) (domEnv : String) (now : Int)
    (store : List ShortLink) (req : CreateReq)
    (hc : req.custom = "") (hu : goTrimSpace req.url ≠ "")
    (hv : isValidURL parse (goTrimSpace req.url) = true) :
    ((∀ k, k < 5 → gen k = gen2 k) →
      handleCreate parse gen domEnv now store req
        = handleCreate parse gen2 domEnv now store req) ∧
    ((∀ i, i < 5 → ∃ ci, gen i = .ok ci ∧ findByCode store ci ≠ none) →
      handleCreate parse gen domEnv now store req
        = (.internalError "生成短码冲突，稍后重试", store)) ∧
    (∀ j c, j < 5 → gen j = .ok c → findByCode store c = none →
      (∀ i, i < j → ∃ ci, gen i = .ok ci ∧ findByCode store ci ≠ none) →
      handleCreate parse gen domEnv now store req
        = (.ok { code := c,
                 shortURL := goTrimRightSlash (if domEnv = "" then DefaultDomain else domEnv)
                   ++ "/" ++ c,
                 url := goTrimSpace req.url },
           store ++ [{ code := c, targetURL := goTrimSpace req.url, clicks := 0,
                       createdAt := now, expiredAtValid := decide (0 < req.ttl),
                       expiredAt := if 0 < req.ttl then now + req.ttl else 0 }])) := by
  have hstep := handleCreate_valid parse gen domEnv now store req hu hv
  have hcc : chooseCode gen store req.custom = genLoop gen store := by
    rw [chooseCode, if_neg (by simp [hc])]
  refine ⟨?_, ?_, ?_⟩
  · intro hag
    have hstep2 := handleCreate_valid parse gen2 domEnv now store req hu hv
    have hcc2 : chooseCode gen2 store req.custom = genLoop gen2 store := by
      rw [chooseCode, if_neg (by simp [hc])]
    have hgl : genLoop gen store = genLoop gen2 store := by
      rw [genLoop, genLoop]
      exact genLoopAux_congr gen gen2 store 5 0 (fun k hk1 hk2 => hag k (by omega))
    rw [hstep, hstep2, hcc, hcc2, hgl]
  · intro hall
    rw [hstep, hcc, genLoop_all_collide gen store hall]
    rfl
  · intro j c hj hg hf hb
    rw [hstep, hcc, genLoop_first_accept gen store j c hj hg hf hb]

/-- C2 witness: over an empty store, the first generated code "zzzzzz" is
accepted and persisted. -/
theorem c2_generation_witness :
    ((∀ k, k < 5 → genZ k = genZ k) →
      handleCreate parseAlwaysHttp genZ "" 0 [] reqAuto
        = handleCreate parseAlwaysHttp genZ "" 0 [] reqAuto) ∧
    ((∀ i, i < 5 → ∃ ci, genZ i = .ok ci ∧ findByCode [] ci ≠ none) →
      handleCreate parseAlwaysHttp genZ "" 0 [] reqAuto
        = (.internalError "生成短码冲突，稍后重试", [])) ∧
    (∀ j c, j < 5 → genZ j = .ok c → findByCode [] c = none →
      (∀ i, i < j → ∃ ci, genZ i = .ok ci ∧ findByCode [] ci ≠ none) →
      handleCreate parseAlwaysHttp genZ "" 0 [] reqAuto
        = (.ok { code := c,
                 shortURL := goTrimRightSlash (if ("" : String) = "" then DefaultDomain else "")
                   ++ "/" ++ c,
                 url := goTrimSpace reqAuto.url },
           [] ++ [{ code := c, targetURL := goTrimSpace reqAuto.url, clicks := 0,
                    createdAt := 0, expiredAtValid := decide (0 < reqAuto.ttl),
                    expiredAt := if 0 < reqAuto.ttl then 0 + reqAuto.ttl else 0 }])) :=
  c2_generation_policy parseAlwaysHttp genZ genZ "" 0 [] reqAuto rfl (by decide) (by decide)

/-- C5 counterexample: with the configured domain "http://s.example/"
(trailing slash) the returned short_url is "http://s.example/abc", not
the configured domain concatenated with "/" and the code. -/
theorem c5_counterexample_trailing_slash_domain :
    handleCreate parseAlwaysHttp genNone "http://s.example/" 0 [] reqCustomAbc
      = (.ok { code := "abc", shortURL := "http://s.example/abc", url := "http://x.example" },
         [{ code := "abc", targetURL := "http://x.example", clicks := 0, createdAt := 0,
            expiredAtValid := false, expiredAt := 0 }]) ∧
    ("http://s.example/abc" : String) ≠ "http://s.example/" ++ "/" ++ "abc" := by
  constructor
  · rfl
  · decide

/-- C5 (amended): on success the returned short_url equals the configured
domain with its trailing '/' characters removed, then "/", then the code
(the default domain http://localhost:8080 when none is configured); it
equals domain + "/" + code exactly as claimed whenever the configured
domain does not end in '/'; and the returned url equals the submitted,
trimmed original URL. -/
theorem c5_short_url_shape (parse : String → Option GoURL) (gen : Nat → Except Unit String)
    (domEnv : String) (now : Int) (store : List ShortLink) (req : CreateReq)
    (resp : CreateResp) (store2 : List ShortLink)
    (h : handleCreate parse gen domEnv now store req = (.ok resp, store2)) :
    resp.shortURL = goTrimRightSlash (if domEnv = "" then DefaultDomain else domEnv)
      ++ "/" ++ resp.code ∧
    resp.url = goTrimSpace req.url ∧
    (domEnv = "" → resp.shortURL = DefaultDomain ++ "/" ++ resp.code) ∧
    (domEnv.toList.getLast? ≠ some '/' → domEnv ≠ "" →
      resp.shortURL = domEnv ++ "/" ++ resp.code) := by
  rcases handleCreate_shape parse gen domEnv now store req with
    ⟨msg, heq⟩ | ⟨msg, heq⟩ | ⟨msg, heq⟩ | ⟨code, hcc, heq⟩
  · rw [h] at heq
    simp at heq
  · rw [h] at heq
    simp at heq
  · rw [h] at heq
    simp at heq
  · rw [h] at heq
    injection heq with h1 h2
    injection h1 with h3
    subst h3
    refine ⟨rfl, rfl, ?_, ?_⟩
    · intro hd
      rw [hd]
      rfl
    · intro hlast hne
      show goTrimRightSlash (if domEnv = "" then DefaultDomain else domEnv) ++ "/" ++ code
        = domEnv ++ "/" ++ code
      rw [if_neg hne, goTrimRightSlash_eq_self domEnv hlast]

/-- C5 witness: a concrete create under domain "http://s.example" (no
trailing slash) where short_url is exactly domain + "/" + code. -/
theorem c5_short_url_witness :
    respAbc.shortURL = goTrimRightSlash
        (if ("http://s.example" : String) = "" then DefaultDomain else "http://s.example")
      ++ "/" ++ respAbc.code ∧
    respAbc.url = goTrimSpace reqCustomAbc.url ∧
    (("http://s.example" : String) = "" →
      respAbc.shortURL = DefaultDomain ++ "/" ++ respAbc.code) ∧
    (("http://s.example" : String).toList.getLast? ≠ some '/' →
      ("http://s.example" : String) ≠ "" →
      respAbc.shortURL = "http://s.example" ++ "/" ++ respAbc.code) :=
  c5_short_url_shape parseAlwaysHttp genNone "http://s.example" 0 [] reqCustomAbc
    respAbc storeAbc rfl

/-- C4: a freshly created link starts with clicks 0; the only operation
that changes any clicks counter is a successful redirect — answered with
the 302 `found` outcome carrying target_url — which increments the served
link's counter by exactly 1 and leaves every other code's lookup
unchanged; create, info, delete and failed redirects leave the stored
clicks untouched. -/
theorem c4_clicks_monotonicity :
    (∀ parse gen domEnv now store req out store2,
        handleCreate parse gen domEnv now store req = (out, store2) →
        store2 = store ∨ ∃ link, store2 = store ++ [link] ∧ link.clicks = 0) ∧
    (∀ now store code out store2,
        handleRedirect now store code = (out, store2) →
        ((∀ loc, out ≠ .found loc) → store2 = store) ∧
        (∀ loc, out = .found loc →
          ∃ link, findByCode store code = some link ∧ loc = link.targetURL ∧
            findByCode store2 code = some { link with clicks := link.clicks + 1 } ∧
            ∀ other, other ≠ code → findByCode store2 other = findByCode store other)) ∧
    (∀ store code, (handleInfo store code).2 = store) ∧
    (∀ store code out store2, handleDelete store code = (out, store2) →
        ∀ l ∈ store2, l ∈ store) := by
  refine ⟨?_, ?_, ?_, ?_⟩
  · intro parse gen domEnv now store req out store2 h
    rcases handleCreate_shape parse gen domEnv now store req with
      ⟨msg, heq⟩ | ⟨msg, heq⟩ | ⟨msg, heq⟩ | ⟨code, hcc, heq⟩ <;> rw [h] at heq <;>
      injection heq with h1 h2
    · exact Or.inl h2
    · exact Or.inl h2
    · exact Or.inl h2
    · exact Or.inr ⟨_, h2, rfl⟩
  · intro now store code out store2 h
    by_cases hcz : code = ""
    · rw [handleRedirect, if_pos hcz] at h
      injection h with h1 h2
      refine ⟨fun _ => h2.symm, fun loc hloc => ?_⟩
      rw [← h1] at hloc
      cases hloc
    · cases hf : findByCode store code with
      | none =>
          have hval : handleRedirect now store code = (.notFound, store) := by
            rw [handleRedirect, if_neg hcz, hf]
          have hco := hval.symm.trans h
          injection hco with h1 h2
          refine ⟨fun _ => h2.symm, fun loc hloc => ?_⟩
          rw [← h1] at hloc
          cases hloc
      | some link =>
          by_cases hexp : isExpired now link = true
          · have hval : handleRedirect now store code = (.gone, store) := by
              rw [handleRedirect, if_neg hcz, hf]
              simp [hexp]
            have hco := hval.symm.trans h
            injection hco with h1 h2
            refine ⟨fun _ => h2.symm, fun loc hloc => ?_⟩
            rw [← h1] at hloc
            cases hloc
          · have hval : handleRedirect now store code
                = (.found link.targetURL, bumpFirst store code) := by
              rw [handleRedirect, if_neg hcz, hf]
              simp [hexp]
            have hco := hval.symm.trans h
            injection hco with h1 h2
            constructor
            · intro hnf
              exact absurd h1.symm (hnf link.targetURL)
            · intro loc hloc
              rw [← h1] at hloc
              injection hloc with h3
              refine ⟨link, rfl, h3.symm, ?_, ?_⟩
              · rw [← h2]
                exact findByCode_bumpFirst_self store code link hf
              · intro other hother
                rw [← h2]
                exact findByCode_bumpFirst_ne store code other hother
  · intro store code
    cases hf : findByCode store code <;> simp [handleInfo, hf]
  · intro store code out store2 h l hl
    simp only [handleDelete] at h
    split at h <;> injection h with h1 h2 <;> rw [← h2] at hl <;>
      exact (List.mem_filter.mp hl).1

/-- C10 (implicit): a create request with non-positive ttl_seconds is not
rejected — it behaves exactly like one with ttl 0: on success the stored
link has no expiry set; in general a successful create sets an expiry iff
ttl_seconds is positive; and a stored link with no expiry set is never
answered gone by a redirect, at any instant. -/
theorem c10_nonpositive_ttl_means_no_expiry (parse : String → Option GoURL)
    (gen : Nat → Except Unit String) (domEnv : String) (now : Int)
    (store : List ShortLink) (req : CreateReq) (httl : req.ttl ≤ 0) :
    handleCreate parse gen domEnv now store req
      = handleCreate parse gen domEnv now store { req with ttl := 0 } ∧
    (∀ out store2, handleCreate parse gen domEnv now store req = (out, store2) →
      ∀ resp, out = .ok resp →
        ∃ link, store2 = store ++ [link] ∧ link.expiredAtValid = false) ∧
    (∀ (req2 : CreateReq) out store2,
      handleCreate parse gen domEnv now store req2 = (out, store2) →
      ∀ resp, out = .ok resp →
        ∃ link, store2 = store ++ [link] ∧ (link.expiredAtValid = true ↔ 0 < req2.ttl)) ∧
    (∀ st c lnk n2, findByCode st c = some lnk → lnk.expiredAtValid = false →
      (handleRedirect n2 st c).1 ≠ .gone) := by
  have h0 : ¬ (0 < req.ttl) := by omega
  refine ⟨?_, ?_, ?_, ?_⟩
  · simp only [handleCreate]
    simp [h0]
  · intro out store2 h resp hout
    subst hout
    rcases handleCreate_shape parse gen domEnv now store req with
      ⟨msg, heq⟩ | ⟨msg, heq⟩ | ⟨msg, heq⟩ | ⟨code, hcc, heq⟩ <;> rw [h] at heq <;>
      injection heq with h1 h2
    · cases h1
    · cases h1
    · cases h1
    · exact ⟨_, h2, decide_eq_false h0⟩
  · intro req2 out store2 h resp hout
    subst hout
    rcases handleCreate_shape parse gen domEnv now store req2 with
      ⟨msg, heq⟩ | ⟨msg, heq⟩ | ⟨msg, heq⟩ | ⟨code, hcc, heq⟩ <;> rw [h] at heq <;>
      injection heq with h1 h2
    · cases h1
    · cases h1
    · cases h1
    · exact ⟨_, h2, by simp⟩
  · intro st c lnk n2 hf hval
    by_cases hcz : c = ""
    · rw [handleRedirect, if_pos hcz]
      simp
    · have hexp : isExpired n2 lnk = false := by
        rw [isExpired, hval]
        rfl
      rw [handleRedirect, if_neg hcz, hf]
      simp [hexp]

/-- C10 witness: creating with ttl_seconds = -7 over an empty store is not
rejected and stores a link with no expiry. -/
theorem c10_nonpositive_ttl_witness :
    handleCreate parseAlwaysHttp genNone "" 0 [] reqNegTTL
      = handleCreate parseAlwaysHttp genNone "" 0 [] { reqNegTTL with ttl := 0 } ∧
    (∀ out store2, handleCreate parseAlwaysHttp genNone "" 0 [] reqNegTTL = (out, store2) →
      ∀ resp, out = .ok resp →
        ∃ link, store2 = [] ++ [link] ∧ link.expiredAtValid = false) ∧
    (∀ (req2 : CreateReq) out store2,
      handleCreate parseAlwaysHttp genNone "" 0 [] req2 = (out, store2) →
      ∀ resp, out = .ok resp →
        ∃ link, store2 = [] ++ [link] ∧ (link.expiredAtValid = true ↔ 0 < req2.ttl)) ∧
    (∀ st c lnk n2, findByCode st c = some lnk → lnk.expiredAtValid = false →
      (handleRedirect n2 st c).1 ≠ .gone) :=
  c10_nonpositive_ttl_means_no_expiry parseAlwaysHttp genNone "" 0 [] reqNegTTL (by decide)
